import Mathlib

/-!
Verification of the ZKSync transaction encoder
(`ape_zksync/transaction.py`, class `ZKSyncTransaction`).

The development shallowly embeds `ZKSyncTransaction.serialize_transaction`
and `ZKSyncTransaction.txn_hash`.  Bytes are modelled as `List Nat` (each
entry a byte value `< 256`); integers are `Nat` (the transaction fields are
unsigned); optional fields are `Option`; the missing-signature exception
becomes `Except`.
-/

/-- A byte string, most significant byte first. Every entry produced by the
encoder is `< 256`. -/
abbrev Bytes := List Nat

/-- Big-endian byte rendering of a natural number, computed with explicit
fuel so that it is structurally recursive (the fuel bounds the number of
digits; `n` itself always suffices). -/
def beBytesAux : Nat → Nat → Bytes
  | 0, _ => []
  | fuel + 1, n => if n = 0 then [] else beBytesAux fuel (n / 256) ++ [n % 256]

/-- Minimal big-endian byte rendering of a natural number; `beBytes 0 = []`.
This is what `HexBytes(int)` produces in the source. -/
def beBytes (n : Nat) : Bytes := beBytesAux n n

/-- The numeric value of a big-endian byte string (the inverse reading of
`beBytes`), used to state that the rendering is faithful. -/
def beVal (b : Bytes) : Nat := b.foldl (fun acc d => acc * 256 + d) 0

/-- The `to_bytes` closure of `serialize_transaction`, on an integer input:
`HexBytes(val).lstrip(b"\x00") if val else HexBytes(b"")`.  An integer `0`
is falsy, so it renders as the empty byte string; a positive integer renders
as its minimal big-endian bytes (already free of leading zeros, so the
`lstrip` is a no-op on this input class). -/
def to_bytes_nat (n : Nat) : Bytes := if n = 0 then [] else beBytes n

/-- The `to_bytes` closure on an optional integer field (`None` is falsy). -/
def to_bytes_optNat : Option Nat → Bytes
  | none => []
  | some n => to_bytes_nat n

/-- The `to_bytes` closure on a byte-string input (data, addresses, 32-byte
hashes): empty input is falsy and renders as empty; otherwise all leading
zero bytes are stripped (`lstrip(b"\x00")`). -/
def to_bytes_bytes (b : Bytes) : Bytes :=
  if b.isEmpty then [] else b.dropWhile (fun d => d == 0)

/-- The `to_bytes` closure on an optional byte-string field. -/
def to_bytes_optBytes : Option Bytes → Bytes
  | none => []
  | some b => to_bytes_bytes b

/-- RLP length header: `base + len` for short payloads (≤ 55 bytes),
otherwise `base + 55 + |len-bytes|` followed by the big-endian length. -/
def rlpLength (base len : Nat) : Bytes :=
  if len ≤ 55 then [base + len]
  else (base + 55 + (beBytes len).length) :: beBytes len

/-- RLP encoding of a byte string: a single byte `< 0x80` stands for itself;
any other string is prefixed with a `0x80`-based length header. -/
def rlpStr (b : Bytes) : Bytes :=
  match b with
  | [x] => if x < 128 then [x] else rlpLength 128 1 ++ [x]
  | _ => rlpLength 128 b.length ++ b

/-- RLP encoding of a list given its already-encoded payload: a
`0xc0`-based length header followed by the payload. -/
def rlpList (payload : Bytes) : Bytes := rlpLength 192 payload.length ++ payload

/-- A top-level element of the encoded sequence: either a byte string or a
list of byte strings (the only nesting the transaction format uses, for
`factory_deps`). -/
inductive RLPItem where
  | str : Bytes → RLPItem
  | strs : List Bytes → RLPItem
deriving DecidableEq

/-- RLP encoding of one top-level element. -/
def rlpItem : RLPItem → Bytes
  | .str b => rlpStr b
  | .strs l => rlpList (l.map rlpStr).flatten

/-- RLP encoding of the top-level sequence (`rlp.encode(data)` in the
source). -/
def rlpItems (l : List RLPItem) : Bytes := rlpList (l.map rlpItem).flatten

/-- The single error path of the encoder:
`SignatureError("Transaction is not signed.")`. -/
inductive SignatureError where
  | missingSignature
deriving DecidableEq

/-- The fields of `ZKSyncTransaction` read by `serialize_transaction`.
Addresses (`receiver`, `sender`, `paymaster`) are modelled by their byte
content; an ECDSA `signature` is the `(v, r, s)` triple with `v` in the
Ethereum 27/28 convention; `aa_signature` is an opaque byte string. -/
structure ZKSyncTransaction where
  nonce : Option Nat
  max_priority_fee : Option Nat
  max_fee : Option Nat
  gas_limit : Option Nat
  receiver : Option Bytes
  value : Nat
  data : Bytes
  signature : Option (Nat × Nat × Nat)
  chain_id : Option Nat
  sender : Option Bytes
  gas_per_pubdata_byte_limit : Nat
  factory_deps : Option (List Bytes)
  aa_signature : Option Bytes
  paymaster : Option Bytes
  paymaster_input : Option Bytes
deriving DecidableEq

/-- The ordered top-level sequence (`data` in `serialize_transaction`),
or the missing-signature error when neither signature form is present. -/
def serialize_items (tx : ZKSyncTransaction) : Except SignatureError (List RLPItem) :=
  if !(tx.signature.isSome || tx.aa_signature.isSome) then
    .error .missingSignature
  else
    .ok (
      [.str (to_bytes_optNat tx.nonce),
       .str (to_bytes_optNat tx.max_priority_fee),
       .str (to_bytes_optNat tx.max_fee),
       .str (to_bytes_optNat tx.gas_limit),
       .str (to_bytes_optBytes tx.receiver),
       .str (to_bytes_nat tx.value),
       .str (to_bytes_bytes tx.data)]
      ++ (match tx.signature with
          | some (v, r, s) =>
            [.str (to_bytes_nat (v - 27)), .str (to_bytes_nat r), .str (to_bytes_nat s)]
          | none =>
            [.str (to_bytes_optNat tx.chain_id), .str [], .str []])
      ++ [.str (to_bytes_optNat tx.chain_id),
          .str (to_bytes_optBytes tx.sender),
          .str (to_bytes_nat tx.gas_per_pubdata_byte_limit),
          (match tx.factory_deps with
           | some l => if l.isEmpty then .strs [] else .strs (l.map to_bytes_bytes)
           | none => .strs []),
          .str (to_bytes_optBytes tx.aa_signature)]
      ++ (match tx.paymaster with
          | some p => [.str (to_bytes_bytes p), .str (to_bytes_optBytes tx.paymaster_input)]
          | none => []))

/-- `ZKSyncTransaction.serialize_transaction`: the one type byte `0x71`
(`self.type`) followed by the RLP encoding of the ordered sequence. -/
def serialize_transaction (tx : ZKSyncTransaction) : Except SignatureError Bytes :=
  (serialize_items tx).map (fun items => 0x71 :: rlpItems items)

/-- `ZKSyncTransaction.txn_hash`: `keccak(self.serialize_transaction())`.
The keccak-256 digest function is an external library dependency
(`eth_utils.keccak`), so it is a parameter here. -/
def txn_hash (keccak : Bytes → Bytes) (tx : ZKSyncTransaction) :
    Except SignatureError Bytes :=
  (serialize_transaction tx).map keccak

/-- The concrete transaction of the spec's round-trip scenario: a 20-byte
address with no leading zero bytes. -/
def addrA : Bytes := List.replicate 20 0xAA

/-- The concrete transaction of the spec's round-trip scenario. -/
def exampleTx : ZKSyncTransaction :=
  { nonce := some 5
    max_priority_fee := some 1000000000
    max_fee := some 2000000000
    gas_limit := some 100000
    receiver := some addrA
    value := 0
    data := []
    signature := some (27, 12345, 67890)
    chain_id := some 270
    sender := some addrA
    gas_per_pubdata_byte_limit := 160000
    factory_deps := none
    aa_signature := none
    paymaster := none
    paymaster_input := none }

/-- The top-level sequence produced for `exampleTx`. -/
def exampleItems : List RLPItem := ((serialize_items exampleTx).toOption).getD []

/-- `exampleTx` with the account-abstraction signature also set. -/
def exampleTx2 : ZKSyncTransaction := { exampleTx with aa_signature := some [222, 173] }

/-- The top-level sequence produced for `exampleTx2`. -/
def exampleItems2 : List RLPItem := ((serialize_items exampleTx2).toOption).getD []

/-- `exampleTx` with both signature forms removed. -/
def unsignedTx : ZKSyncTransaction :=
  { exampleTx with signature := none, aa_signature := none }

/-- The full encoder output for `exampleTx`. -/
def exampleEncoding : Bytes := ((serialize_transaction exampleTx).toOption).getD []

/-! ### Facts about the byte-normalization function -/

theorem beBytesAux_zero (fuel : Nat) : beBytesAux fuel 0 = [] := by
  cases fuel <;> simp [beBytesAux]

theorem beVal_append (xs : Bytes) (d : Nat) :
    beVal (xs ++ [d]) = beVal xs * 256 + d := by
  simp [beVal, List.foldl_append]

theorem beBytesAux_val (fuel : Nat) : ∀ n : Nat, n ≤ fuel →
    beVal (beBytesAux fuel n) = n := by
  induction fuel with
  | zero =>
    intro n h
    have : n = 0 := Nat.le_zero.mp h
    simp [this, beBytesAux, beVal]
  | succ f ih =>
    intro n h
    by_cases hn : n = 0
    · simp [hn, beBytesAux, beVal]
    · have hlt : n / 256 < n := Nat.div_lt_self (Nat.pos_of_ne_zero hn) (by omega)
      have hdiv : n / 256 ≤ f := by omega
      simp only [beBytesAux, hn, if_false]
      rw [beVal_append, ih _ hdiv]
      omega

theorem beBytesAux_head (fuel : Nat) : ∀ n : Nat, 0 < n → n ≤ fuel →
    ∃ d t, beBytesAux fuel n = d :: t ∧ 0 < d := by
  induction fuel with
  | zero => intro n h1 h2; omega
  | succ f ih =>
    intro n h1 h2
    have hn : n ≠ 0 := by omega
    by_cases hlt : n < 256
    · have hdz : n / 256 = 0 := Nat.div_eq_of_lt hlt
      refine ⟨n % 256, [], ?_, ?_⟩
      · simp [beBytesAux, hn, hdz, beBytesAux_zero]
      · rw [Nat.mod_eq_of_lt hlt]; exact h1
    · have hpos : 0 < n / 256 := Nat.div_pos (le_of_not_lt hlt) (by omega)
      have hle : n / 256 ≤ f := by
        have : n / 256 < n := Nat.div_lt_self h1 (by omega)
        omega
      obtain ⟨d, t, he, hd⟩ := ih (n / 256) hpos hle
      exact ⟨d, t ++ [n % 256], by simp [beBytesAux, hn, he], hd⟩

theorem beBytesAux_bytes (fuel : Nat) : ∀ n : Nat, ∀ d ∈ beBytesAux fuel n, d < 256 := by
  induction fuel with
  | zero => intro n d hd; simp [beBytesAux] at hd
  | succ f ih =>
    intro n d hd
    by_cases hn : n = 0
    · simp [beBytesAux, hn] at hd
    · simp only [beBytesAux, hn, if_false, List.mem_append, List.mem_singleton] at hd
      rcases hd with hd | hd
      · exact ih _ d hd
      · subst hd; exact Nat.mod_lt _ (by omega)

theorem dropWhile_zero_spec (b : Bytes) :
    ∃ k, b = List.replicate k 0 ++ b.dropWhile (fun d => d == 0) ∧
      (b.dropWhile (fun d => d == 0)).head? ≠ some 0 := by
  induction b with
  | nil => exact ⟨0, rfl, by simp⟩
  | cons x xs ih =>
    by_cases hx : x = 0
    · obtain ⟨k, h1, h2⟩ := ih
      subst hx
      refine ⟨k + 1, ?_, ?_⟩
      · simp only [List.dropWhile_cons, beq_self_eq_true, if_true, List.replicate_succ,
          List.cons_append]
        exact congrArg _ h1
      · simpa [List.dropWhile_cons] using h2
    · refine ⟨0, by simp [List.dropWhile_cons, hx], by simp [List.dropWhile_cons, hx, hx]⟩

/-! ### Claim theorems -/

/-- C1: for every transaction with a resolvable signature, the encoder
returns the type byte `0x71` followed by the RLP encoding of the ordered
sequence: the seven normalized base fields, the three-element signature
block, `chainId`, `sender`, `gasPerPubdataByteLimit`, the
factory-dependencies list element, the account-abstraction signature, and
finally the optional paymaster pair. -/
theorem C1_encode_layout (tx : ZKSyncTransaction)
    (h : tx.signature.isSome ∨ tx.aa_signature.isSome) :
    serialize_transaction tx = Except.ok (0x71 :: rlpItems (
      [RLPItem.str (to_bytes_optNat tx.nonce),
       RLPItem.str (to_bytes_optNat tx.max_priority_fee),
       RLPItem.str (to_bytes_optNat tx.max_fee),
       RLPItem.str (to_bytes_optNat tx.gas_limit),
       RLPItem.str (to_bytes_optBytes tx.receiver),
       RLPItem.str (to_bytes_nat tx.value),
       RLPItem.str (to_bytes_bytes tx.data)]
      ++ (match tx.signature with
          | some (v, r, s) =>
            [RLPItem.str (to_bytes_nat (v - 27)), RLPItem.str (to_bytes_nat r),
             RLPItem.str (to_bytes_nat s)]
          | none =>
            [RLPItem.str (to_bytes_optNat tx.chain_id), RLPItem.str [], RLPItem.str []])
      ++ [RLPItem.str (to_bytes_optNat tx.chain_id),
          RLPItem.str (to_bytes_optBytes tx.sender),
          RLPItem.str (to_bytes_nat tx.gas_per_pubdata_byte_limit),
          (match tx.factory_deps with
           | some l => if l.isEmpty then RLPItem.strs [] else RLPItem.strs (l.map to_bytes_bytes)
           | none => RLPItem.strs []),
          RLPItem.str (to_bytes_optBytes tx.aa_signature)]
      ++ (match tx.paymaster with
          | some p =>
            [RLPItem.str (to_bytes_bytes p), RLPItem.str (to_bytes_optBytes tx.paymaster_input)]
          | none => []))) := by
  have hc : (tx.signature.isSome || tx.aa_signature.isSome) = true := by
    rcases h with h | h <;> simp [h]
  simp [serialize_transaction, Except.map, serialize_items, hc]

/-- Witness for C1 at the concrete round-trip transaction. -/
theorem C1_encode_layout_witness :
    serialize_transaction exampleTx = Except.ok (0x71 :: rlpItems exampleItems) :=
  C1_encode_layout exampleTx (Or.inl rfl)

/-- C2: encoding fails with the missing-signature error exactly when neither
the ECDSA signature nor the account-abstraction signature is present; the
error is the only error; and with either signature form present the encoder
produces an output. -/
theorem C2_missing_signature (tx : ZKSyncTransaction) :
    (serialize_transaction tx = Except.error SignatureError.missingSignature ↔
      tx.signature = none ∧ tx.aa_signature = none) ∧
    (∀ e, serialize_transaction tx = Except.error e → e = SignatureError.missingSignature) ∧
    ((tx.signature.isSome ∨ tx.aa_signature.isSome) →
      ∀ e, serialize_transaction tx ≠ Except.error e) := by
  cases hs : tx.signature with
  | none =>
    cases ha : tx.aa_signature with
    | none =>
      refine ⟨by simp [serialize_transaction, Except.map, serialize_items, hs, ha], ?_, ?_⟩
      · intro e _; cases e; rfl
      · intro h; simp [hs, ha] at h
    | some a =>
      refine ⟨by simp [serialize_transaction, Except.map, serialize_items, hs, ha], ?_, ?_⟩
      · intro e he; simp [serialize_transaction, Except.map, serialize_items, hs, ha] at he
      · intro _ e
        simp [serialize_transaction, Except.map, serialize_items, hs, ha]
  | some s =>
    refine ⟨by simp [serialize_transaction, Except.map, serialize_items, hs], ?_, ?_⟩
    · intro e he; simp [serialize_transaction, Except.map, serialize_items, hs] at he
    · intro _ e
      simp [serialize_transaction, Except.map, serialize_items, hs]

/-- Witness for C2 at the concrete unsigned transaction. -/
theorem C2_missing_signature_witness :
    serialize_transaction unsignedTx = Except.error SignatureError.missingSignature :=
  (C2_missing_signature unsignedTx).1.mpr ⟨rfl, rfl⟩

/-- C3: the normalization function renders an integer as its big-endian
bytes with no leading zero byte (so reading the bytes back gives the
integer), renders zero and absent values as the empty byte string, and on
byte strings (data, addresses, hashes) removes exactly the leading zero
bytes, leaving a suffix whose first byte is nonzero. -/
theorem C3_norm_minimal_bigendian (n : Nat) (b : Bytes) :
    beVal (to_bytes_nat n) = n ∧
    (to_bytes_nat n).head? ≠ some 0 ∧
    (∀ d ∈ to_bytes_nat n, d < 256) ∧
    to_bytes_nat 0 = [] ∧
    to_bytes_optNat none = [] ∧
    to_bytes_optBytes none = [] ∧
    (∃ k, b = List.replicate k 0 ++ to_bytes_bytes b) ∧
    (to_bytes_bytes b).head? ≠ some 0 := by
  refine ⟨?_, ?_, ?_, rfl, rfl, rfl, ?_, ?_⟩
  · by_cases hn : n = 0
    · simp [to_bytes_nat, hn, beVal]
    · simp only [to_bytes_nat, hn, if_false]
      exact beBytesAux_val n n le_rfl
  · by_cases hn : n = 0
    · simp [to_bytes_nat, hn]
    · obtain ⟨d, t, he, hd⟩ := beBytesAux_head n n (Nat.pos_of_ne_zero hn) le_rfl
      simp only [to_bytes_nat, hn, if_false, beBytes, he, List.head?_cons, ne_eq,
        Option.some.injEq]
      omega
  · intro d hd
    by_cases hn : n = 0
    · simp [to_bytes_nat, hn] at hd
    · simp only [to_bytes_nat, hn, if_false] at hd
      exact beBytesAux_bytes n n d hd
  · obtain ⟨k, h1, _⟩ := dropWhile_zero_spec b
    cases b with
    | nil => exact ⟨0, rfl⟩
    | cons x xs => exact ⟨k, by simpa [to_bytes_bytes] using h1⟩
  · obtain ⟨_, _, h2⟩ := dropWhile_zero_spec b
    cases b with
    | nil => simp [to_bytes_bytes]
    | cons x xs => simpa [to_bytes_bytes] using h2

/-- Witness for C3 at a concrete integer. -/
theorem C3_norm_minimal_bigendian_witness : beVal (to_bytes_nat 5) = 5 :=
  (C3_norm_minimal_bigendian 5 [0, 7]).1

/-- C4: when an ECDSA signature `(v, r, s)` is present, positions 7..9 of
the top-level sequence are `norm(v - 27), norm(r), norm(s)` (so `v = 27`
contributes the empty string and `v = 28` the single byte `0x01`); when no
ECDSA signature is present (account-abstraction path), positions 7..9 are
`norm(chainId)` followed by two empty placeholders. -/
theorem C4_signature_block (tx : ZKSyncTransaction) (l : List RLPItem)
    (h : serialize_items tx = Except.ok l) :
    (∀ v r s, tx.signature = some (v, r, s) →
      (l.drop 7).take 3 =
        [RLPItem.str (to_bytes_nat (v - 27)), RLPItem.str (to_bytes_nat r),
         RLPItem.str (to_bytes_nat s)]) ∧
    to_bytes_nat (27 - 27) = [] ∧
    to_bytes_nat (28 - 27) = [1] ∧
    (tx.signature = none →
      (l.drop 7).take 3 =
        [RLPItem.str (to_bytes_optNat tx.chain_id), RLPItem.str [], RLPItem.str []]) := by
  refine ⟨?_, rfl, rfl, ?_⟩
  · intro v r s hs
    simp only [serialize_items, hs, Option.isSome_some, Bool.true_or, Bool.not_true,
      Bool.false_eq_true, if_false, Except.ok.injEq] at h
    subst h
    rfl
  · intro hs
    cases ha : tx.aa_signature with
    | none => simp [serialize_items, hs, ha] at h
    | some a =>
      simp only [serialize_items, hs, ha, Option.isSome_some, Option.isSome_none,
        Bool.false_or, Bool.not_true, Bool.false_eq_true, if_false, Except.ok.injEq] at h
      subst h
      rfl

/-- Witness for C4 at the concrete round-trip transaction (`v = 27`). -/
theorem C4_signature_block_witness :
    (exampleItems.drop 7).take 3 =
      [RLPItem.str (to_bytes_nat (27 - 27)), RLPItem.str (to_bytes_nat 12345),
       RLPItem.str (to_bytes_nat 67890)] :=
  (C4_signature_block exampleTx exampleItems rfl).1 27 12345 67890 rfl

/-- C5 counterexample: the claim's element counts are wrong — the
paymaster-free round-trip transaction's top-level sequence has 15 elements,
not 14. -/
theorem C5_counterexample :
    exampleTx.paymaster = none ∧
    serialize_items exampleTx = Except.ok exampleItems ∧
    exampleItems.length ≠ 14 :=
  ⟨rfl, rfl, by decide⟩

/-- C5 (amended): the top-level sequence has 15 elements without a
paymaster and 17 with one, and adding a paymaster to an otherwise-identical
transaction appends exactly `norm(paymaster), norm(paymasterInput)` at the
end. -/
theorem C5_paymaster_arity (tx : ZKSyncTransaction) (l : List RLPItem)
    (h : serialize_items tx = Except.ok l) :
    (tx.paymaster = none → l.length = 15) ∧
    (∀ p, tx.paymaster = some p → l.length = 17) ∧
    (∀ p, tx.paymaster = none →
      serialize_items { tx with paymaster := some p } = Except.ok
        (l ++ [RLPItem.str (to_bytes_bytes p),
               RLPItem.str (to_bytes_optBytes tx.paymaster_input)])) := by
  by_cases hc : (tx.signature.isSome || tx.aa_signature.isSome) = true
  case neg => simp [serialize_items, hc] at h
  simp only [serialize_items, hc, Bool.not_true, Bool.false_eq_true, if_false,
    Except.ok.injEq] at h
  subst h
  refine ⟨?_, ?_, ?_⟩
  · intro hp
    cases tx.signature <;> simp [hp]
  · intro p hp
    cases tx.signature <;> simp [hp]
  · intro p hp
    simp [serialize_items, hc, hp]

/-- Witness for C5 (amended) at the concrete round-trip transaction. -/
theorem C5_paymaster_arity_witness : exampleItems.length = 15 :=
  (C5_paymaster_arity exampleTx exampleItems rfl).1 rfl

/-- C6 counterexample: on the spec's round-trip transaction the top-level
sequence has 15 elements, not 12 as the claim states. -/
theorem C6_counterexample :
    serialize_items exampleTx = Except.ok exampleItems ∧
    exampleItems.length ≠ 12 :=
  ⟨rfl, by decide⟩

/-- C6 (amended): on the spec's round-trip transaction, encoding succeeds,
the output begins with the byte `0x71`, the top-level sequence has 15
elements, and the `value` and `data` elements are zero-length. -/
theorem C6_roundtrip :
    serialize_transaction exampleTx = Except.ok (0x71 :: rlpItems exampleItems) ∧
    (0x71 :: rlpItems exampleItems).head? = some 0x71 ∧
    exampleItems.length = 15 ∧
    (exampleItems.drop 5).head? = some (RLPItem.str []) ∧
    (exampleItems.drop 6).head? = some (RLPItem.str []) :=
  ⟨rfl, rfl, by decide, rfl, rfl⟩

/-- C7: an explicitly empty factory-dependencies list and an absent one
encode identically, and in both cases position 13 of the top-level sequence
is an explicit empty list element. -/
theorem C7_factory_deps_empty (tx : ZKSyncTransaction) :
    serialize_transaction { tx with factory_deps := some [] } =
      serialize_transaction { tx with factory_deps := none } ∧
    (∀ l, serialize_items { tx with factory_deps := none } = Except.ok l →
      (l.drop 13).head? = some (RLPItem.strs [])) ∧
    (∀ l, serialize_items { tx with factory_deps := some [] } = Except.ok l →
      (l.drop 13).head? = some (RLPItem.strs [])) := by
  refine ⟨rfl, ?_, ?_⟩ <;>
  · intro l h
    by_cases hc : (tx.signature.isSome || tx.aa_signature.isSome) = true
    case neg => simp [serialize_items, hc] at h
    simp only [serialize_items, hc, Bool.not_true, Bool.false_eq_true, if_false,
      Except.ok.injEq] at h
    subst h
    cases tx.signature <;> rfl

/-- Witness for C7 at the concrete round-trip transaction. -/
theorem C7_factory_deps_empty_witness :
    serialize_transaction { exampleTx with factory_deps := some [] } =
      serialize_transaction { exampleTx with factory_deps := none } :=
  (C7_factory_deps_empty exampleTx).1

/-- C8: the transaction hash is the digest of the full encoder output
(which begins with the type byte `0x71`), and it fails exactly when the
encoder fails, with the same error. -/
theorem C8_hash_composition (keccak : Bytes → Bytes) (tx : ZKSyncTransaction) :
    (∀ enc, serialize_transaction tx = Except.ok enc →
      txn_hash keccak tx = Except.ok (keccak enc) ∧ enc.head? = some 0x71) ∧
    (∀ e, txn_hash keccak tx = Except.error e ↔ serialize_transaction tx = Except.error e) := by
  constructor
  · intro enc he
    refine ⟨by simp [txn_hash, he, Except.map], ?_⟩
    rcases hsi : serialize_items tx with e | items
    · rw [serialize_transaction, hsi] at he; simp [Except.map] at he
    · rw [serialize_transaction, hsi] at he
      simp only [Except.map, Except.ok.injEq] at he
      rw [← he]
      rfl
  · intro e
    rcases hsi : serialize_transaction tx with e2 | out <;>
      simp [txn_hash, hsi, Except.map]

/-- Witness for C8 at the concrete round-trip transaction with a stand-in
digest function. -/
theorem C8_hash_composition_witness :
    txn_hash (fun _ => List.replicate 32 0) exampleTx =
      Except.ok (List.replicate 32 0) :=
  ((C8_hash_composition (fun _ => List.replicate 32 0) exampleTx).1
    exampleEncoding rfl).1

/-- C9: the encoder and the hash are deterministic, pure functions of the
transaction value: equal inputs give identical outputs.  (In this embedding
both operations are total functions of the transaction value alone, so
freedom from mutation and environment effects holds by construction.) -/
theorem C9_deterministic (tx1 tx2 : ZKSyncTransaction) (h : tx1 = tx2) :
    serialize_transaction tx1 = serialize_transaction tx2 ∧
    (∀ keccak : Bytes → Bytes, txn_hash keccak tx1 = txn_hash keccak tx2) := by
  subst h; exact ⟨rfl, fun _ => rfl⟩

/-- Witness for C9 at the concrete round-trip transaction. -/
theorem C9_deterministic_witness :
    serialize_transaction exampleTx = serialize_transaction exampleTx :=
  (C9_deterministic exampleTx exampleTx rfl).1

/-- C10: when both signature forms are present, encoding succeeds; the
ECDSA branch provides the signature block at positions 7..9, and the
account-abstraction signature is still encoded in its own slot at
position 14. -/
theorem C10_both_signatures (tx : ZKSyncTransaction) (v r s : Nat) (a : Bytes)
    (h1 : tx.signature = some (v, r, s)) (h2 : tx.aa_signature = some a) :
    (∀ e, serialize_transaction tx ≠ Except.error e) ∧
    (∀ l, serialize_items tx = Except.ok l →
      (l.drop 7).take 3 =
        [RLPItem.str (to_bytes_nat (v - 27)), RLPItem.str (to_bytes_nat r),
         RLPItem.str (to_bytes_nat s)] ∧
      (l.drop 14).head? = some (RLPItem.str (to_bytes_bytes a))) := by
  constructor
  · intro e; simp [serialize_transaction, Except.map, serialize_items, h1]
  · intro l h
    simp only [serialize_items, h1, h2, Option.isSome_some, Bool.true_or, Bool.not_true,
      Bool.false_eq_true, if_false, Except.ok.injEq] at h
    subst h
    exact ⟨rfl, rfl⟩

/-- Witness for C10 at the round-trip transaction carrying both an ECDSA
and an account-abstraction signature. -/
theorem C10_both_signatures_witness :
    (exampleItems2.drop 7).take 3 =
      [RLPItem.str (to_bytes_nat (27 - 27)), RLPItem.str (to_bytes_nat 12345),
       RLPItem.str (to_bytes_nat 67890)] ∧
    (exampleItems2.drop 14).head? = some (RLPItem.str (to_bytes_bytes [222, 173])) :=
  (C10_both_signatures exampleTx2 27 12345 67890 [222, 173] rfl rfl).2 exampleItems2 rfl
